import Mathlib

/-!
Verification of the content-change detection engine of the
website-monitoring-agent repository (`src/modules/content_comparator.py`).

The Python source is shallowly embedded below.  Conventions of the embedding:

* Python `str` is modelled by Lean `String` (a sequence of Unicode code
  points); byte-level operations (`str.encode`) go through an explicit UTF-8
  encoder.
* Python `float` arithmetic on change scores and similarity ratios is
  modelled by exact rational arithmetic (`ℚ`).  The scores involved are
  quotients of small integers, the spec reasons about them as exact
  quantities.
* `hashlib.md5(...).hexdigest()` is embedded as a full executable MD5 over
  the UTF-8 bytes of the input.
* `difflib.SequenceMatcher` / `difflib.unified_diff` (CPython's stdlib
  implementation, as invoked with `isjunk=None`) are embedded function by
  function; loops whose termination is not structural use an explicit fuel
  that provably dominates the Python loop count.
* Character classes (`str.isspace`, `str.splitlines` boundaries, `\d`,
  `re.IGNORECASE`) are modelled on the character sets the engine's inputs
  exercise (ASCII plus the documented extra break/space code points); the
  comments at each definition record the Python semantics being mirrored.
-/

set_option maxRecDepth 200000

namespace WebMonitor

/-! ## Python string primitives -/

/-- Characters for which Python `str.isspace()` is true (whitespace property,
or bidirectional class WS/B/S): this is the separator set of `str.split()`
and the set stripped by `str.strip()`. -/
def pyIsSpace (c : Char) : Bool :=
  let n := c.toNat
  (0x09 ≤ n ∧ n ≤ 0x0d) ∨ n = 0x20 ∨ (0x1c ≤ n ∧ n ≤ 0x1f) ∨
  n = 0x85 ∨ n = 0xa0 ∨ n = 0x1680 ∨ (0x2000 ≤ n ∧ n ≤ 0x200a) ∨
  n = 0x2028 ∨ n = 0x2029 ∨ n = 0x202f ∨ n = 0x205f ∨ n = 0x3000

/-- Line-boundary characters of Python `str.splitlines()`:
`\n`, `\r` (with `\r\n` counting as a single break), `\v`, `\f`,
FS/GS/RS (0x1c-0x1e), NEL (0x85), LINE SEPARATOR and PARAGRAPH SEPARATOR. -/
def pyIsLineBreak (c : Char) : Bool :=
  let n := c.toNat
  n = 0x0a ∨ n = 0x0d ∨ n = 0x0b ∨ n = 0x0c ∨
  (0x1c ≤ n ∧ n ≤ 0x1e) ∨ n = 0x85 ∨ n = 0x2028 ∨ n = 0x2029

/-- Worker for `pySplitlines`: `cur` is the current line being accumulated,
in reverse.  A break at the very end of the input produces no further line,
matching Python (`"A\n".splitlines() == ["A"]`). -/
def splitlinesGo : List Char → List Char → List (List Char)
  | [], cur => [cur.reverse]
  | '\r' :: '\n' :: rest, cur =>
    match rest with
    | [] => [cur.reverse]
    | r :: rs => cur.reverse :: splitlinesGo (r :: rs) []
  | c :: rest, cur =>
    if pyIsLineBreak c then
      match rest with
      | [] => [cur.reverse]
      | r :: rs => cur.reverse :: splitlinesGo (r :: rs) []
    else splitlinesGo rest (c :: cur)

/-- Python `str.splitlines()` (without `keepends`). -/
def pySplitlines (s : String) : List String :=
  match s.data with
  | [] => []
  | c :: cs => (splitlinesGo (c :: cs) []).map List.asString

/-- Python `str.strip()` with no argument: remove leading and trailing
whitespace (in the `pyIsSpace` sense). -/
def pyStrip (s : String) : String :=
  (((s.data.dropWhile pyIsSpace).reverse.dropWhile pyIsSpace).reverse).asString

/-- Worker for `pySplit`: split on runs of whitespace, discarding empties. -/
def pySplitGo : List Char → List Char → List (List Char)
  | [], cur => if cur.isEmpty then [] else [cur.reverse]
  | c :: rest, cur =>
    if pyIsSpace c then
      if cur.isEmpty then pySplitGo rest [] else cur.reverse :: pySplitGo rest []
    else pySplitGo rest (c :: cur)

/-- Python `str.split()` with no argument. -/
def pySplit (s : String) : List String :=
  (pySplitGo s.data []).map List.asString

/-! ## MD5 (`hashlib.md5(content.encode()).hexdigest()`) -/

/-- Reduce modulo 2^32. -/
def u32 (n : Nat) : Nat := n % 4294967296

/-- 32-bit left rotation (operand assumed < 2^32). -/
def rotl32 (x s : Nat) : Nat := u32 (x <<< s) ||| (x >>> (32 - s))

/-- 32-bit bitwise complement. -/
def not32 (x : Nat) : Nat := x ^^^ 4294967295

/-- UTF-8 encoding of one character, as Python `str.encode()` produces. -/
def utf8Bytes (c : Char) : List Nat :=
  let n := c.toNat
  if n < 0x80 then [n]
  else if n < 0x800 then
    [0xc0 ||| (n >>> 6), 0x80 ||| (n &&& 0x3f)]
  else if n < 0x10000 then
    [0xe0 ||| (n >>> 12), 0x80 ||| ((n >>> 6) &&& 0x3f), 0x80 ||| (n &&& 0x3f)]
  else
    [0xf0 ||| (n >>> 18), 0x80 ||| ((n >>> 12) &&& 0x3f),
     0x80 ||| ((n >>> 6) &&& 0x3f), 0x80 ||| (n &&& 0x3f)]

/-- UTF-8 bytes of a string. -/
def utf8Encode (s : String) : List Nat := s.data.flatMap utf8Bytes

/-- The 64 MD5 round constants `floor(2^32 * |sin(i+1)|)`. -/
def md5K : List Nat :=
  [0xd76aa478, 0xe8c7b756, 0x242070db, 0xc1bdceee, 0xf57c0faf, 0x4787c62a, 0xa8304613, 0xfd469501,
   0x698098d8, 0x8b44f7af, 0xffff5bb1, 0x895cd7be, 0x6b901122, 0xfd987193, 0xa679438e, 0x49b40821,
   0xf61e2562, 0xc040b340, 0x265e5a51, 0xe9b6c7aa, 0xd62f105d, 0x02441453, 0xd8a1e681, 0xe7d3fbc8,
   0x21e1cde6, 0xc33707d6, 0xf4d50d87, 0x455a14ed, 0xa9e3e905, 0xfcefa3f8, 0x676f02d9, 0x8d2a4c8a,
   0xfffa3942, 0x8771f681, 0x6d9d6122, 0xfde5380c, 0xa4beea44, 0x4bdecfa9, 0xf6bb4b60, 0xbebfbc70,
   0x289b7ec6, 0xeaa127fa, 0xd4ef3085, 0x04881d05, 0xd9d4d039, 0xe6db99e5, 0x1fa27cf8, 0xc4ac5665,
   0xf4292244, 0x432aff97, 0xab9423a7, 0xfc93a039, 0x655b59c3, 0x8f0ccc92, 0xffeff47d, 0x85845dd1,
   0x6fa87e4f, 0xfe2ce6e0, 0xa3014314, 0x4e0811a1, 0xf7537e82, 0xbd3af235, 0x2ad7d2bb, 0xeb86d391]

/-- The MD5 per-round left-rotation amounts. -/
def md5S : List Nat :=
  [7, 12, 17, 22, 7, 12, 17, 22, 7, 12, 17, 22, 7, 12, 17, 22,
   5, 9, 14, 20, 5, 9, 14, 20, 5, 9, 14, 20, 5, 9, 14, 20,
   4, 11, 16, 23, 4, 11, 16, 23, 4, 11, 16, 23, 4, 11, 16, 23,
   6, 10, 15, 21, 6, 10, 15, 21, 6, 10, 15, 21, 6, 10, 15, 21]

/-- One MD5 round: state `(a, b, c, d)`, message words `m`, round index `i`. -/
def md5Round (m : List Nat) (st : Nat × Nat × Nat × Nat) (i : Nat) :
    Nat × Nat × Nat × Nat :=
  let a := st.1
  let b := st.2.1
  let c := st.2.2.1
  let d := st.2.2.2
  let fg : Nat × Nat :=
    if i < 16 then ((b &&& c) ||| (not32 b &&& d), i)
    else if i < 32 then ((d &&& b) ||| (not32 d &&& c), (5 * i + 1) % 16)
    else if i < 48 then (b ^^^ c ^^^ d, (3 * i + 5) % 16)
    else (c ^^^ (b ||| not32 d), (7 * i) % 16)
  let f := u32 (fg.1 + a + (md5K.getD i 0) + (m.getD fg.2 0))
  (d, u32 (b + rotl32 f (md5S.getD i 0)), b, c)

/-- Split a 64-byte block into sixteen little-endian 32-bit words. -/
def md5Words (block : List Nat) : List Nat :=
  (List.range 16).map fun j =>
    block.getD (4 * j) 0 + 256 * block.getD (4 * j + 1) 0 +
    65536 * block.getD (4 * j + 2) 0 + 16777216 * block.getD (4 * j + 3) 0

/-- Split a byte list into 64-byte blocks (the input length is a multiple
of 64 after padding). -/
def md5Blocks : Nat → List Nat → List (List Nat)
  | _, [] => []
  | 0, _ => []
  | fuel + 1, bytes => bytes.take 64 :: md5Blocks fuel (bytes.drop 64)

/-- Process one block, updating the running state. -/
def md5Block (st : Nat × Nat × Nat × Nat) (block : List Nat) :
    Nat × Nat × Nat × Nat :=
  let m := md5Words block
  let r := (List.range 64).foldl (md5Round m) st
  (u32 (st.1 + r.1), u32 (st.2.1 + r.2.1), u32 (st.2.2.1 + r.2.2.1),
   u32 (st.2.2.2 + r.2.2.2))

/-- MD5 padding: append `0x80`, zero-fill to 56 mod 64, then the original
bit length as a 64-bit little-endian quantity. -/
def md5Pad (bytes : List Nat) : List Nat :=
  let len := bytes.length
  let zeros := (56 + 64 - ((len + 1) % 64)) % 64
  let bitLen := (len * 8) % 18446744073709551616
  bytes ++ [0x80] ++ List.replicate zeros 0 ++
    (List.range 8).map fun i => (bitLen >>> (8 * i)) &&& 255

/-- Lowercase hexadecimal digit. -/
def hexDigit (n : Nat) : Char :=
  if n < 10 then Char.ofNat (48 + n) else Char.ofNat (87 + n)

/-- Four little-endian bytes of a 32-bit word, as hex characters. -/
def hex32le (x : Nat) : List Char :=
  (List.range 4).flatMap fun i =>
    let b := (x >>> (8 * i)) &&& 255
    [hexDigit (b >>> 4), hexDigit (b &&& 15)]

/-- `hashlib.md5(s.encode()).hexdigest()`. -/
def md5Hex (s : String) : String :=
  let bytes := md5Pad (utf8Encode s)
  let st := (md5Blocks (bytes.length / 64 + 1) bytes).foldl md5Block
    (0x67452301, 0xefcdab89, 0x98badcfe, 0x10325476)
  (hex32le st.1 ++ hex32le st.2.1 ++ hex32le st.2.2.1 ++ hex32le st.2.2.2).asString

/-! ## difflib.SequenceMatcher (CPython stdlib, as used with isjunk=None)

The embedding is generic in the element type: the engine runs it both on
line lists (`unified_diff`) and on character lists (`ratio` inside
`_are_similar`). -/

section Difflib

variable {α β : Type} [DecidableEq α]

/-- Association-list lookup (models a Python dict keyed by `α`). -/
def alookup : List (α × β) → α → Option β
  | [], _ => none
  | (k, v) :: rest, x => if k = x then some v else alookup rest x

/-- Record index `i` for element `x` (models `b2j.setdefault(elt, []).append(i)`,
preserving dict insertion order). -/
def b2jInsert (m : List (α × List Nat)) (x : α) (i : Nat) : List (α × List Nat) :=
  match m with
  | [] => [(x, [i])]
  | (k, v) :: rest => if k = x then (k, v ++ [i]) :: rest else (k, v) :: b2jInsert rest x i

/-- `SequenceMatcher.__chain_b`: build `b2j`, then with `autojunk=True`
delete "popular" elements when `len(b) >= 200` (`bjunk` stays empty because
the engine always passes `isjunk=None`). -/
def chainB (b : List α) : List (α × List Nat) :=
  let m := b.enum.foldl (fun m p => b2jInsert m p.2 p.1) []
  if 200 ≤ b.length then
    let ntest := b.length / 100 + 1
    m.filter fun p => ¬ (ntest < p.2.length)
  else m

/-- `j2len.get(j, 0)`. -/
def j2lenGet (m : List (Nat × Nat)) (j : Nat) : Nat :=
  match alookup m j with
  | some v => v
  | none => 0

/-- Inner loop of `find_longest_match` over the occurrence list of `a[i]`
in `b` (ascending indices): `continue` below `blo`, `break` at `bhi`,
extend runs via the previous row `prev` (Python's `j2len.get(j-1, 0)`,
which is 0 when `j = 0`), and track the strictly-best block. -/
def jloop (i blo bhi : Nat) (prev : List (Nat × Nat)) :
    List Nat → List (Nat × Nat) → Nat × Nat × Nat →
    List (Nat × Nat) × (Nat × Nat × Nat)
  | [], acc, best => (acc, best)
  | j :: js, acc, best =>
    if j < blo then jloop i blo bhi prev js acc best
    else if bhi ≤ j then (acc, best)
    else
      let k := (if j = 0 then 0 else j2lenGet prev (j - 1)) + 1
      let best' := if best.2.2 < k then (i + 1 - k, j + 1 - k, k) else best
      jloop i blo bhi prev js ((j, k) :: acc) best'

/-- Outer loop of `find_longest_match` over `i in range(alo, ahi)`;
`cnt` counts the remaining iterations. -/
def iloop (a : List α) (b2j : List (α × List Nat)) (blo bhi : Nat) :
    Nat → Nat → List (Nat × Nat) → Nat × Nat × Nat → Nat × Nat × Nat
  | _, 0, _, best => best
  | i, cnt + 1, prev, best =>
    let js := match a.get? i with
      | some x => (alookup b2j x).getD []
      | none => []
    let r := jloop i blo bhi prev js [] best
    iloop a b2j blo bhi (i + 1) cnt r.1 r.2

/-- `a[i] == b[j]`, false out of range (all uses are in range). -/
def eqAt (a b : List α) (i j : Nat) : Bool :=
  match a.get? i, b.get? j with
  | some x, some y => x = y
  | _, _ => false

/-- Backward extension of the best block over equal elements
(`while besti > alo and bestj > blo and ... a[besti-1] == b[bestj-1]`);
the fuel dominates the iteration count. -/
def extendLo (a b : List α) (alo blo : Nat) :
    Nat → Nat × Nat × Nat → Nat × Nat × Nat
  | 0, st => st
  | fuel + 1, (bi, bj, bs) =>
    if alo < bi ∧ blo < bj ∧ eqAt a b (bi - 1) (bj - 1) then
      extendLo a b alo blo fuel (bi - 1, bj - 1, bs + 1)
    else (bi, bj, bs)

/-- Forward extension of the best block over equal elements. -/
def extendHi (a b : List α) (ahi bhi : Nat) :
    Nat → Nat × Nat × Nat → Nat × Nat × Nat
  | 0, st => st
  | fuel + 1, (bi, bj, bs) =>
    if bi + bs < ahi ∧ bj + bs < bhi ∧ eqAt a b (bi + bs) (bj + bs) then
      extendHi a b ahi bhi fuel (bi, bj, bs + 1)
    else (bi, bj, bs)

/-- `SequenceMatcher.find_longest_match(alo, ahi, blo, bhi)`.  The two
junk-extension loops of CPython are identically vacuous here because the
engine always constructs matchers with `isjunk=None` (so `bjunk = ∅`);
the two non-junk extension loops are kept. -/
def findLongestMatch (a b : List α) (b2j : List (α × List Nat))
    (alo ahi blo bhi : Nat) : Nat × Nat × Nat :=
  let best := iloop a b2j blo bhi alo (ahi - alo) [] (alo, blo, 0)
  extendHi a b ahi bhi ahi (extendLo a b alo blo best.1 best)

/-- The region-splitting loop of `get_matching_blocks` (LIFO queue);
each region that yields a nonempty match pushes the strictly smaller
left and right subregions, so the fuel `len(a)+len(b)+1` dominates the
number of pops. -/
def mbQueue (a b : List α) (b2j : List (α × List Nat)) :
    Nat → List (Nat × Nat × Nat × Nat) → List (Nat × Nat × Nat) →
    List (Nat × Nat × Nat)
  | 0, _, acc => acc
  | _ + 1, [], acc => acc
  | fuel + 1, (alo, ahi, blo, bhi) :: rest, acc =>
    let m := findLongestMatch a b b2j alo ahi blo bhi
    let i := m.1
    let j := m.2.1
    let k := m.2.2
    if k ≠ 0 then
      let rest' :=
        (if i + k < ahi ∧ j + k < bhi then [(i + k, ahi, j + k, bhi)] else []) ++
        (if alo < i ∧ blo < j then [(alo, i, blo, j)] else []) ++ rest
      mbQueue a b b2j fuel rest' ((i, j, k) :: acc)
    else mbQueue a b b2j fuel rest acc

/-- Lexicographic order on match triples (Python tuple `sort()`). -/
def lexLE (x y : Nat × Nat × Nat) : Bool :=
  x.1 < y.1 ∨ (x.1 = y.1 ∧ (x.2.1 < y.2.1 ∨ (x.2.1 = y.2.1 ∧ x.2.2 ≤ y.2.2)))

/-- Insertion into a lex-sorted list. -/
def insSorted (x : Nat × Nat × Nat) : List (Nat × Nat × Nat) → List (Nat × Nat × Nat)
  | [] => [x]
  | y :: ys => if lexLE x y then x :: y :: ys else y :: insSorted x ys

/-- `matching_blocks.sort()`. -/
def sortBlocks : List (Nat × Nat × Nat) → List (Nat × Nat × Nat)
  | [] => []
  | x :: xs => insSorted x (sortBlocks xs)

/-- The adjacent-block merging pass of `get_matching_blocks`. -/
def collapseBlocks : Nat → Nat → Nat → List (Nat × Nat × Nat) → List (Nat × Nat × Nat)
  | i1, j1, k1, [] => if k1 ≠ 0 then [(i1, j1, k1)] else []
  | i1, j1, k1, (i2, j2, k2) :: rest =>
    if i1 + k1 = i2 ∧ j1 + k1 = j2 then collapseBlocks i1 j1 (k1 + k2) rest
    else (if k1 ≠ 0 then [(i1, j1, k1)] else []) ++ collapseBlocks i2 j2 k2 rest

/-- `SequenceMatcher.get_matching_blocks()` (with the terminating
`(len(a), len(b), 0)` sentinel). -/
def getMatchingBlocks (a b : List α) : List (Nat × Nat × Nat) :=
  let b2j := chainB b
  let raw := mbQueue a b b2j (a.length + b.length + 1) [(0, a.length, 0, b.length)] []
  collapseBlocks 0 0 0 (sortBlocks raw) ++ [(a.length, b.length, 0)]

/-- `SequenceMatcher.ratio()`: `2*M/T` as an exact rational (CPython
computes the same quotient in binary floating point). -/
def ratioOf (a b : List α) : ℚ :=
  let numMatches := ((getMatchingBlocks a b).map fun t => t.2.2).sum
  let length := a.length + b.length
  if length ≠ 0 then 2 * (numMatches : ℚ) / (length : ℚ) else 1

/-- Diff opcode tags. -/
inductive DiffTag
  | replace
  | delete
  | insert
  | equal
deriving DecidableEq, Repr

/-- One entry of `get_opcodes()`: `(tag, i1, i2, j1, j2)`. -/
structure OpCode where
  tag : DiffTag
  i1 : Nat
  i2 : Nat
  j1 : Nat
  j2 : Nat
deriving DecidableEq, Repr

/-- The accumulation loop of `get_opcodes()`. -/
def opcodesGo : Nat → Nat → List (Nat × Nat × Nat) → List OpCode
  | _, _, [] => []
  | i, j, (ai, bj, size) :: rest =>
    (if i < ai ∧ j < bj then [⟨.replace, i, ai, j, bj⟩]
     else if i < ai then [⟨.delete, i, ai, j, bj⟩]
     else if j < bj then [⟨.insert, i, ai, j, bj⟩]
     else []) ++
    (if size ≠ 0 then [⟨.equal, ai, ai + size, bj, bj + size⟩] else []) ++
    opcodesGo (ai + size) (bj + size) rest

/-- `SequenceMatcher.get_opcodes()`. -/
def getOpcodes (a b : List α) : List OpCode := opcodesGo 0 0 (getMatchingBlocks a b)

/-- `get_grouped_opcodes`: widen a leading equal block to at most `n`
context lines. -/
def fixupHead (n : Nat) : List OpCode → List OpCode
  | ⟨.equal, i1, i2, j1, j2⟩ :: rest =>
    ⟨.equal, max i1 (i2 - n), i2, max j1 (j2 - n), j2⟩ :: rest
  | cs => cs

/-- `get_grouped_opcodes`: narrow a trailing equal block to at most `n`
context lines. -/
def fixupLast (n : Nat) : List OpCode → List OpCode
  | [] => []
  | [op] =>
    if op.tag = .equal then [⟨.equal, op.i1, min op.i2 (op.i1 + n), op.j1, min op.j2 (op.j1 + n)⟩]
    else [op]
  | op :: rest => op :: fixupLast n rest

/-- `group and not (len(group)==1 and group[0][0] == 'equal')` negated. -/
def groupIsSingleEqual : List OpCode → Bool
  | [op] => op.tag = .equal
  | _ => false

/-- The group-splitting loop of `get_grouped_opcodes(n)`: a large equal
block ends the current group (keeping `n` lines of context on each side). -/
def groupGo (n : Nat) : List OpCode → List OpCode → List (List OpCode)
  | group, [] => if ¬ group.isEmpty ∧ ¬ groupIsSingleEqual group then [group] else []
  | group, op :: rest =>
    if op.tag = .equal ∧ n + n < op.i2 - op.i1 then
      (group ++ [⟨.equal, op.i1, min op.i2 (op.i1 + n), op.j1, min op.j2 (op.j1 + n)⟩]) ::
        groupGo n [⟨.equal, max op.i1 (op.i2 - n), op.i2, max op.j1 (op.j2 - n), op.j2⟩] rest
    else groupGo n (group ++ [op]) rest

/-- `SequenceMatcher.get_grouped_opcodes(n)` (with the empty-opcode
placeholder `("equal", 0, 1, 0, 1)` of CPython). -/
def getGroupedOpcodes (a b : List α) (n : Nat) : List (List OpCode) :=
  let codes0 := getOpcodes a b
  let codes1 := if codes0.isEmpty then [⟨.equal, 0, 1, 0, 1⟩] else codes0
  groupGo n [] (fixupLast n (fixupHead n codes1))

/-- Python slice `l[i:j]`. -/
def sliceList (l : List α) (i j : Nat) : List α := (l.take j).drop i

end Difflib

/-! ## difflib.unified_diff (lineterm='', n=0, empty file names) -/

/-- `difflib._format_range_unified`. -/
def formatRangeUnified (start stop : Nat) : String :=
  let beginning := start + 1
  let length := stop - start
  if length = 1 then toString beginning
  else toString (if length = 0 then beginning - 1 else beginning) ++ "," ++ toString length

/-- The `@@`-headed hunk emitted for one opcode group. -/
def groupDiffLines (a b : List String) (g : List OpCode) : List String :=
  match g.head?, g.getLast? with
  | some first, some last =>
    ("@@ -" ++ formatRangeUnified first.i1 last.i2 ++ " +" ++
      formatRangeUnified first.j1 last.j2 ++ " @@") ::
    g.flatMap fun op =>
      match op.tag with
      | .equal => (sliceList a op.i1 op.i2).map (fun l => " " ++ l)
      | .replace => (sliceList a op.i1 op.i2).map (fun l => "-" ++ l) ++
                    (sliceList b op.j1 op.j2).map (fun l => "+" ++ l)
      | .delete => (sliceList a op.i1 op.i2).map (fun l => "-" ++ l)
      | .insert => (sliceList b op.j1 op.j2).map (fun l => "+" ++ l)
  | _, _ => []

/-- `list(difflib.unified_diff(a, b, lineterm='', n=0))` as called by the
engine: the `"--- "`/`"+++ "` headers are emitted once, before the first
group, only when at least one group exists. -/
def unifiedDiff (a b : List String) : List String :=
  let groups := getGroupedOpcodes a b 0
  if groups.isEmpty then []
  else "--- " :: "+++ " :: groups.flatMap (groupDiffLines a b)

/-! ## The dynamic-noise patterns (`DYNAMIC_PATTERNS` + `re.search` with
`re.IGNORECASE`)

Each Python regex is embedded as a position matcher (does the pattern match
at the head of this suffix?) plus the `re.search` scan over all suffixes.
Case-insensitivity is modelled by lowercasing the line and writing the
literals in lowercase (ASCII case folding; the patterns are ASCII).  `\d`
is modelled by `Char.isDigit` (Python also accepts non-ASCII decimal
digits).  The trailing `.*` of several patterns always matches because a
`splitlines` line contains no line-break character. -/

/-- Does the literal `pat` occur at the head of `s`? -/
def litHere : List Char → List Char → Bool
  | [], _ => true
  | _ :: _, [] => false
  | p :: ps, c :: cs => if p = c then litHere ps cs else false

/-- `re.search`: does the matcher succeed at some position? -/
def reSearch (m : List Char → Bool) : List Char → Bool
  | [] => m []
  | c :: cs => m (c :: cs) || reSearch m cs

/-- `\d{4}-\d{2}-\d{2}` at the head. -/
def isoAt : List Char → Bool
  | y1 :: y2 :: y3 :: y4 :: '-' :: m1 :: m2 :: '-' :: d1 :: d2 :: _ =>
    y1.isDigit ∧ y2.isDigit ∧ y3.isDigit ∧ y4.isDigit ∧
    m1.isDigit ∧ m2.isDigit ∧ d1.isDigit ∧ d2.isDigit
  | _ => false

/-- `\d{2}/\d{2}/\d{4}` at the head. -/
def ddmmAt : List Char → Bool
  | d1 :: d2 :: '/' :: m1 :: m2 :: '/' :: y1 :: y2 :: y3 :: y4 :: _ =>
    d1.isDigit ∧ d2.isDigit ∧ m1.isDigit ∧ m2.isDigit ∧
    y1.isDigit ∧ y2.isDigit ∧ y3.isDigit ∧ y4.isDigit
  | _ => false

/-- `:\d{2}:\d{2}` at the head (tail of the time pattern). -/
def hmsTail : List Char → Bool
  | ':' :: m1 :: m2 :: ':' :: s1 :: s2 :: _ =>
    m1.isDigit ∧ m2.isDigit ∧ s1.isDigit ∧ s2.isDigit
  | _ => false

/-- `\d{1,2}:\d{2}:\d{2}` at the head (greedy two digits, backtracking to
one). -/
def timeAt : List Char → Bool
  | c1 :: c2 :: rest => c1.isDigit ∧ ((c2.isDigit ∧ hmsTail rest) ∨ hmsTail (c2 :: rest))
  | _ => false

/-- `\d+ visitors? online` at the head: `\d+` must consume the whole digit
run (the next pattern character is a space), then `visitor`, an optional
`s`, and ` online`. -/
def visitorsAt : List Char → Bool
  | c :: rest =>
    c.isDigit ∧
      (let tl := rest.dropWhile Char.isDigit
       litHere " visitor".data tl ∧
         (litHere "s online".data (tl.drop 8) ∨ litHere " online".data (tl.drop 8)))
  | [] => false

/-- `\d{4}` at the head (year of the copyright pattern). -/
def fourDigitsAt : List Char → Bool
  | a :: b :: c :: d :: _ => a.isDigit ∧ b.isDigit ∧ c.isDigit ∧ d.isDigit
  | _ => false

/-- `Copyright © \d{4}` at the head (lowercased literal, 12 characters). -/
def copyrightAt (s : List Char) : Bool :=
  litHere "copyright © ".data s ∧ fourDigitsAt (s.drop 12)

/-- ASCII lowercasing of a line (models `re.IGNORECASE` / `str.lower` on
the ASCII patterns involved). -/
def pyLower (s : List Char) : List Char := s.map Char.toLower

/-- `ContentComparator.DYNAMIC_PATTERNS`, in source order, each as
`re.search(pattern, ·, re.IGNORECASE)` on the lowercased line. -/
def DYNAMIC_PATTERNS : List (List Char → Bool) :=
  [reSearch isoAt,
   reSearch ddmmAt,
   reSearch timeAt,
   reSearch (litHere "updated:".data),
   reSearch (litHere "last modified:".data),
   reSearch (litHere "session id:".data),
   reSearch (litHere "cookie:".data),
   reSearch visitorsAt,
   reSearch copyrightAt,
   reSearch (litHere "generated on".data)]

/-- The inner loop of `_filter_dynamic_content`: `is_dynamic` is set as
soon as one pattern searches successfully. -/
def isDynamic (line : String) : Bool :=
  DYNAMIC_PATTERNS.any fun p => p (pyLower line.data)

/-! ## ContentComparator -/

/-- `ComparisonResult` (dataclass). -/
structure ComparisonResult where
  has_changes : Bool
  change_score : ℚ
  added_lines : List String
  removed_lines : List String
  modified_lines : List (String × String)
  diff_summary : String
  total_lines_old : Nat
  total_lines_new : Nat
  hash_old : String
  hash_new : String
deriving DecidableEq, Repr

/-- The constructor parameters of `ContentComparator.__init__`
(defaults: `threshold=1.0`, `ignore_whitespace=True`, `ignore_case=False`). -/
structure ContentComparator where
  threshold : ℚ
  ignore_whitespace : Bool
  ignore_case : Bool
deriving DecidableEq, Repr

/-- A comparator built with all constructor defaults. -/
def ContentComparator.default : ContentComparator := ⟨1, true, false⟩

/-- `ContentComparator._hash` (MD5 hexdigest of the UTF-8 bytes). -/
def ContentComparator._hash (content : String) : String := md5Hex content

/-- `ContentComparator._normalize_content`: splitlines, optional lowercase,
optional whitespace collapsing (`' '.join(line.split())`), drop lines that
are empty after stripping. -/
def ContentComparator._normalize_content (c : ContentComparator) (content : String) :
    List String :=
  let lines := pySplitlines content
  let lines := if c.ignore_case then lines.map (fun l => (pyLower l.data).asString) else lines
  let lines := if c.ignore_whitespace then
      lines.map (fun l => String.intercalate " " (pySplit l)) else lines
  lines.filter fun l => pyStrip l ≠ ""

/-- `ContentComparator._filter_dynamic_content`: keep the lines matching no
dynamic pattern, in order. -/
def ContentComparator._filter_dynamic_content : List String → List String
  | [] => []
  | line :: rest =>
    if isDynamic line then ContentComparator._filter_dynamic_content rest
    else line :: ContentComparator._filter_dynamic_content rest

/-- `ContentComparator._are_similar` with its default threshold 0.7:
`SequenceMatcher(None, str1, str2).ratio() >= 0.7`. -/
def ContentComparator._are_similar (str1 str2 : String) : Bool :=
  (7 : ℚ) / 10 ≤ ratioOf str1.data str2.data

/-- The diff-analysis loop of `compare`: skip `---`/`+++`/`@@` header
lines, collect `-` lines (stripped, marker removed) as removals and `+`
lines as additions, in order. -/
def parseDiffGo : List String → List String → List String → List String × List String
  | [], removed, added => (removed.reverse, added.reverse)
  | line :: rest, removed, added =>
    if litHere "---".data line.data ∨ litHere "+++".data line.data ∨
        litHere "@@".data line.data then
      parseDiffGo rest removed added
    else if litHere "-".data line.data then
      parseDiffGo rest (pyStrip (line.drop 1) :: removed) added
    else if litHere "+".data line.data then
      parseDiffGo rest removed (pyStrip (line.drop 1) :: added)
    else parseDiffGo rest removed added

/-- The modification-detection loop of `compare`:

    for rem in removed[:]:
        for add in added[:]:
            if self._are_similar(rem, add):
                modified.append((rem, add)); removed.remove(rem); added.remove(add); break

The first argument is the iteration snapshot `removed[:]`; the second and
third are the current (mutated) lists; `List.erase` is Python
`list.remove` (first occurrence of an equal value). -/
def detectMods : List String → List String → List String →
    List (String × String) → List String × List String × List (String × String)
  | [], removedCur, addedCur, modified => (removedCur, addedCur, modified)
  | rem :: rest, removedCur, addedCur, modified =>
    match addedCur.find? (fun a => ContentComparator._are_similar rem a) with
    | some a =>
      detectMods rest (removedCur.erase rem) (addedCur.erase a) (modified ++ [(rem, a)])
    | none => detectMods rest removedCur addedCur modified

/-- Two-digit zero-padded rendering. -/
def natPad2 (n : Nat) : String := if n < 10 then "0" ++ toString n else toString n

/-- Python `"{:.2f}".format(score)` for the nonnegative scores produced by
the engine: round to two decimals, ties to even (CPython rounds the binary
double; on the engine's small rational scores the exact rounding shown
here is the model). -/
def formatFix2 (q : ℚ) : String :=
  let scaled := q * 100
  let fl := scaled.floor
  let frac := scaled - (fl : ℚ)
  let n : Int := if 1 / 2 < frac then fl + 1
    else if frac < 1 / 2 then fl
    else if fl % 2 = 0 then fl else fl + 1
  let m := n.toNat
  toString (m / 100) ++ "." ++ natPad2 (m % 100)

/-- `ContentComparator._generate_summary`. -/
def ContentComparator._generate_summary (added removed : List String)
    (modified : List (String × String)) (score : ℚ) : String :=
  let parts := ["Score de changement: " ++ formatFix2 score ++ "%"]
  let parts := if ¬ added.isEmpty then
      parts ++ ["\n✚ " ++ toString added.length ++ " ligne(s) ajoutée(s):"] ++
        ((added.take 5).map fun line => "  + " ++ line.take 100) ++
        (if 5 < added.length then ["  ... et " ++ toString (added.length - 5) ++ " autres"]
         else [])
    else parts
  let parts := if ¬ removed.isEmpty then
      parts ++ ["\n✖ " ++ toString removed.length ++ " ligne(s) supprimée(s):"] ++
        ((removed.take 5).map fun line => "  - " ++ line.take 100) ++
        (if 5 < removed.length then ["  ... et " ++ toString (removed.length - 5) ++ " autres"]
         else [])
    else parts
  let parts := if ¬ modified.isEmpty then
      parts ++ ["\n✎ " ++ toString modified.length ++ " ligne(s) modifiée(s):"] ++
        ((modified.take 3).map fun p => "  • " ++ p.1.take 80 ++ " → " ++ p.2.take 80) ++
        (if 3 < modified.length then ["  ... et " ++ toString (modified.length - 3) ++ " autres"]
         else [])
    else parts
  String.intercalate "\n" parts

/-- The line sequence `compare` actually diffs on one side: the normalized
lines, passed through `_filter_dynamic_content` when `filter_dynamic`. -/
def ContentComparator.normalizedLines (c : ContentComparator)
    (content : String) (filter_dynamic : Bool) : List String :=
  let lines := c._normalize_content content
  if filter_dynamic then ContentComparator._filter_dynamic_content lines else lines

/-- The removed/added working lists the diff-analysis loop of `compare`
produces, before modification pairing. -/
def ContentComparator.diffLists (c : ContentComparator)
    (content_old content_new : String) (filter_dynamic : Bool) :
    List String × List String :=
  parseDiffGo
    (unifiedDiff (c.normalizedLines content_old filter_dynamic)
      (c.normalizedLines content_new filter_dynamic)) [] []

/-- The `removed`, `added`, `modified` lists after the modification-pairing
loop of `compare` ran on the diff-classified working lists. -/
def ContentComparator.pairedLists (c : ContentComparator)
    (content_old content_new : String) (filter_dynamic : Bool) :
    List String × List String × List (String × String) :=
  detectMods (c.diffLists content_old content_new filter_dynamic).1
    (c.diffLists content_old content_new filter_dynamic).1
    (c.diffLists content_old content_new filter_dynamic).2 []

/-- `total_changes = len(added) + len(removed) + len(modified)`. -/
def ContentComparator.totalChanges (c : ContentComparator)
    (content_old content_new : String) (filter_dynamic : Bool) : Nat :=
  (c.pairedLists content_old content_new filter_dynamic).2.1.length +
  (c.pairedLists content_old content_new filter_dynamic).1.length +
  (c.pairedLists content_old content_new filter_dynamic).2.2.length

/-- `total_lines = max(len(lines_old), len(lines_new), 1)`. -/
def ContentComparator.totalLines (c : ContentComparator)
    (content_old content_new : String) (filter_dynamic : Bool) : Nat :=
  max (max (c.normalizedLines content_old filter_dynamic).length
    (c.normalizedLines content_new filter_dynamic).length) 1

/-- `change_score = (total_changes / total_lines) * 100`. -/
def ContentComparator.changeScore (c : ContentComparator)
    (content_old content_new : String) (filter_dynamic : Bool) : ℚ :=
  ((c.totalChanges content_old content_new filter_dynamic : ℕ) : ℚ) /
    ((c.totalLines content_old content_new filter_dynamic : ℕ) : ℚ) * 100

/-- The non-short-circuit branch of `compare` (hashes differ): normalize,
filter, diff, pair modifications, score, summarize. -/
def ContentComparator.compareDiffPath (c : ContentComparator)
    (content_old content_new : String) (filter_dynamic : Bool) : ComparisonResult :=
  { has_changes :=
      decide (c.threshold < c.changeScore content_old content_new filter_dynamic)
    change_score := c.changeScore content_old content_new filter_dynamic
    added_lines := (c.pairedLists content_old content_new filter_dynamic).2.1
    removed_lines := (c.pairedLists content_old content_new filter_dynamic).1
    modified_lines := (c.pairedLists content_old content_new filter_dynamic).2.2
    diff_summary := ContentComparator._generate_summary
      (c.pairedLists content_old content_new filter_dynamic).2.1
      (c.pairedLists content_old content_new filter_dynamic).1
      (c.pairedLists content_old content_new filter_dynamic).2.2
      (c.changeScore content_old content_new filter_dynamic)
    total_lines_old := (c.normalizedLines content_old filter_dynamic).length
    total_lines_new := (c.normalizedLines content_new filter_dynamic).length
    hash_old := ContentComparator._hash content_old
    hash_new := ContentComparator._hash content_new }

/-- `ContentComparator.compare(content_old, content_new, filter_dynamic)`:
short-circuit on identical hashes, otherwise run the full diff path. -/
def ContentComparator.compare (c : ContentComparator)
    (content_old content_new : String) (filter_dynamic : Bool) : ComparisonResult :=
  if ContentComparator._hash content_old = ContentComparator._hash content_new then
    { has_changes := false
      change_score := 0
      added_lines := []
      removed_lines := []
      modified_lines := []
      diff_summary := "Aucun changement"
      total_lines_old := (pySplitlines content_old).length
      total_lines_new := (pySplitlines content_new).length
      hash_old := ContentComparator._hash content_old
      hash_new := ContentComparator._hash content_new }
  else
    c.compareDiffPath content_old content_new filter_dynamic

/-- The module-level convenience function `compare_content`. -/
def compare_content (content_old content_new : String) (threshold : ℚ) :
    ComparisonResult :=
  (ContentComparator.mk threshold true false).compare content_old content_new true

/-! ## Specification-side definitions used to state the claims -/

/-- Remove the first element satisfying `p` (used by the claim-level
description of greedy pairing). -/
def eraseFirstP (p : String → Bool) : List String → List String
  | [] => []
  | a :: rest => if p a then rest else a :: eraseFirstP p rest

/-- Greedy first-match pairing as the spec describes it: walk the removed
lines in diff order; pair each with the first remaining added line whose
similarity ratio is at least 0.7, consuming that added line; unpaired
removed lines are kept in order, and the remaining added lines are the
final additions. -/
def pairGreedy : List String → List String →
    List String × List String × List (String × String)
  | [], addedCur => ([], addedCur, [])
  | rem :: rest, addedCur =>
    match addedCur.find? (fun a => ContentComparator._are_similar rem a) with
    | some a =>
      let r := pairGreedy rest
        (eraseFirstP (fun x => ContentComparator._are_similar rem x) addedCur)
      (r.1, r.2.1, (rem, a) :: r.2.2)
    | none =>
      let r := pairGreedy rest addedCur
      (rem :: r.1, r.2.1, r.2.2)

/-- "The line contains the literal `pat`" (claim-level semantics for the
anywhere-matching text patterns). -/
def containsLit (pat s : List Char) : Prop := ∃ l r, s = l ++ pat ++ r

/-! ## Helper lemmas -/

/-- On equal hashes, `compare` returns the fixed short-circuit result. -/
theorem compare_of_hash_eq (c : ContentComparator) (content_old content_new : String)
    (filter_dynamic : Bool)
    (h : ContentComparator._hash content_old = ContentComparator._hash content_new) :
    c.compare content_old content_new filter_dynamic =
      { has_changes := false
        change_score := 0
        added_lines := []
        removed_lines := []
        modified_lines := []
        diff_summary := "Aucun changement"
        total_lines_old := (pySplitlines content_old).length
        total_lines_new := (pySplitlines content_new).length
        hash_old := ContentComparator._hash content_old
        hash_new := ContentComparator._hash content_new } := by
  unfold ContentComparator.compare
  rw [if_pos h]

/-- On distinct hashes, `compare` runs the full diff path. -/
theorem compare_of_hash_ne (c : ContentComparator) (content_old content_new : String)
    (filter_dynamic : Bool)
    (h : ContentComparator._hash content_old ≠ ContentComparator._hash content_new) :
    c.compare content_old content_new filter_dynamic =
      c.compareDiffPath content_old content_new filter_dynamic := by
  unfold ContentComparator.compare
  rw [if_neg h]

/-- The diff-path fields are the modification-detection results on the
diff-classified working lists. -/
theorem compareDiffPath_lines (c : ContentComparator) (content_old content_new : String)
    (filter_dynamic : Bool) :
    (c.compareDiffPath content_old content_new filter_dynamic).removed_lines =
      (c.pairedLists content_old content_new filter_dynamic).1 ∧
    (c.compareDiffPath content_old content_new filter_dynamic).added_lines =
      (c.pairedLists content_old content_new filter_dynamic).2.1 ∧
    (c.compareDiffPath content_old content_new filter_dynamic).modified_lines =
      (c.pairedLists content_old content_new filter_dynamic).2.2 := by
  simp only [ContentComparator.compareDiffPath]
  exact ⟨trivial, trivial, trivial⟩

/-- `pairedLists` is `detectMods` on the diff-classified working lists. -/
theorem pairedLists_def (c : ContentComparator) (content_old content_new : String)
    (filter_dynamic : Bool) :
    c.pairedLists content_old content_new filter_dynamic =
      detectMods (c.diffLists content_old content_new filter_dynamic).1
        (c.diffLists content_old content_new filter_dynamic).1
        (c.diffLists content_old content_new filter_dynamic).2 [] :=
  rfl

/-- The diff-path score is the change-count over the clamped line count,
times 100, and the line-count fields are the filtered normalized lengths. -/
theorem compareDiffPath_score (c : ContentComparator) (content_old content_new : String)
    (filter_dynamic : Bool) :
    (c.compareDiffPath content_old content_new filter_dynamic).change_score =
      (((c.compareDiffPath content_old content_new filter_dynamic).added_lines.length +
        (c.compareDiffPath content_old content_new filter_dynamic).removed_lines.length +
        (c.compareDiffPath content_old content_new filter_dynamic).modified_lines.length : ℕ) : ℚ) /
      ((max (max (c.compareDiffPath content_old content_new filter_dynamic).total_lines_old
          (c.compareDiffPath content_old content_new filter_dynamic).total_lines_new) 1 : ℕ) : ℚ) *
      100 := by
  simp only [ContentComparator.compareDiffPath, ContentComparator.changeScore,
    ContentComparator.totalChanges, ContentComparator.totalLines]

/-- The diff-path line-count fields. -/
theorem compareDiffPath_totals (c : ContentComparator) (content_old content_new : String)
    (filter_dynamic : Bool) :
    (c.compareDiffPath content_old content_new filter_dynamic).total_lines_old =
      (c.normalizedLines content_old filter_dynamic).length ∧
    (c.compareDiffPath content_old content_new filter_dynamic).total_lines_new =
      (c.normalizedLines content_new filter_dynamic).length := by
  simp only [ContentComparator.compareDiffPath]
  exact ⟨trivial, trivial⟩

/-- The diff-path `has_changes` bit decides the strict threshold
comparison. -/
theorem compareDiffPath_has_changes (c : ContentComparator) (content_old content_new : String)
    (filter_dynamic : Bool) :
    (c.compareDiffPath content_old content_new filter_dynamic).has_changes =
      decide (c.threshold <
        (c.compareDiffPath content_old content_new filter_dynamic).change_score) := by
  simp only [ContentComparator.compareDiffPath]

/-- When `find?` finds `a`, Python's remove-by-value `erase a` deletes
exactly the first element satisfying the predicate (an earlier equal value
would itself satisfy the predicate). -/
theorem erase_of_find?_eq_some (p : String → Bool) (l : List String) (a : String)
    (h : l.find? p = some a) : l.erase a = eraseFirstP p l := by
  induction l with
  | nil => simp at h
  | cons b t ih =>
    by_cases hb : p b
    · rw [List.find?_cons_of_pos _ hb] at h
      obtain rfl := Option.some.inj h
      rw [List.erase_cons_head]
      simp [eraseFirstP, hb]
    · rw [List.find?_cons_of_neg _ hb] at h
      have hpa : p a := List.find?_some h
      have hne : b ≠ a := by
        intro e
        rw [e] at hb
        exact hb hpa
      rw [List.erase_cons_tail]
      · simp [eraseFirstP, hb, ih h]
      · simpa using hne

/-- `eraseFirstP` only removes elements. -/
theorem mem_of_mem_eraseFirstP (p : String → Bool) (l : List String) (x : String)
    (h : x ∈ eraseFirstP p l) : x ∈ l := by
  induction l with
  | nil => simp [eraseFirstP] at h
  | cons b t ih =>
    by_cases hb : p b
    · simp only [eraseFirstP, if_pos hb] at h
      exact List.mem_cons_of_mem _ h
    · simp only [eraseFirstP, if_neg hb, List.mem_cons] at h
      rcases h with rfl | h
      · exact List.mem_cons_self _ _
      · exact List.mem_cons_of_mem _ (ih h)

/-- Removing the found element and putting it back in front is a
permutation. -/
theorem perm_cons_eraseFirstP (p : String → Bool) (l : List String) (a : String)
    (h : l.find? p = some a) : (a :: eraseFirstP p l).Perm l := by
  induction l with
  | nil => simp at h
  | cons b t ih =>
    by_cases hb : p b
    · rw [List.find?_cons_of_pos _ hb] at h
      obtain rfl := Option.some.inj h
      simp [eraseFirstP, hb]
    · rw [List.find?_cons_of_neg _ hb] at h
      simp only [eraseFirstP, if_neg hb]
      exact (List.Perm.swap b a _).trans ((ih h).cons b)

/-- Invariant form of the pairing-loop correspondence: while the Python
loop walks the snapshot, the current removed list is the unpaired prefix
followed by the unprocessed suffix, and every unpaired-prefix line is
dissimilar to every remaining added line (adds only shrink, so a line that
once failed to pair keeps failing).  Under that invariant, remove-by-value
behaves like remove-at-the-matched-position. -/
theorem detectMods_go_eq (rest : List String) :
    ∀ (pre addedCur : List String) (mods : List (String × String)),
      (∀ u ∈ pre, ∀ a ∈ addedCur, ContentComparator._are_similar u a = false) →
      detectMods rest (pre ++ rest) addedCur mods =
        (pre ++ (pairGreedy rest addedCur).1, (pairGreedy rest addedCur).2.1,
         mods ++ (pairGreedy rest addedCur).2.2) := by
  induction rest with
  | nil =>
    intro pre addedCur mods _
    simp [detectMods, pairGreedy]
  | cons rem rest ih =>
    intro pre addedCur mods hinv
    cases hfind : addedCur.find? (fun a => ContentComparator._are_similar rem a) with
    | none =>
      have hall := List.find?_eq_none.mp hfind
      have hstep : detectMods (rem :: rest) (pre ++ rem :: rest) addedCur mods =
          detectMods rest (pre ++ rem :: rest) addedCur mods := by
        simp [detectMods, hfind]
      have hsplit : pre ++ rem :: rest = (pre ++ [rem]) ++ rest := by simp
      have hinv2 : ∀ u ∈ pre ++ [rem], ∀ a ∈ addedCur,
          ContentComparator._are_similar u a = false := by
        intro u hu a ha
        rcases List.mem_append.mp hu with h1 | h2
        · exact hinv u h1 a ha
        · obtain rfl : u = rem := by simpa using h2
          simpa using hall a ha
      rw [hstep, hsplit, ih (pre ++ [rem]) addedCur mods hinv2]
      simp [pairGreedy, hfind]
    | some a =>
      have hpa : ContentComparator._are_similar rem a = true := by
        simpa using List.find?_some hfind
      have hremnotpre : rem ∉ pre := by
        intro hmem
        have := hinv rem hmem a (List.mem_of_find?_eq_some hfind)
        rw [hpa] at this
        exact Bool.true_eq_false.mp this
      have herase1 : (pre ++ rem :: rest).erase rem = pre ++ rest := by
        rw [List.erase_append_right _ hremnotpre, List.erase_cons_head]
      have herase2 : addedCur.erase a =
          eraseFirstP (fun x => ContentComparator._are_similar rem x) addedCur :=
        erase_of_find?_eq_some _ _ _ hfind
      have hinv2 : ∀ u ∈ pre,
          ∀ b ∈ eraseFirstP (fun x => ContentComparator._are_similar rem x) addedCur,
          ContentComparator._are_similar u b = false := by
        intro u hu b hb
        exact hinv u hu b (mem_of_mem_eraseFirstP _ _ _ hb)
      have hstep : detectMods (rem :: rest) (pre ++ rem :: rest) addedCur mods =
          detectMods rest (pre ++ rest)
            (eraseFirstP (fun x => ContentComparator._are_similar rem x) addedCur)
            (mods ++ [(rem, a)]) := by
        simp [detectMods, hfind, herase1, herase2]
      rw [hstep, ih pre _ (mods ++ [(rem, a)]) hinv2]
      simp [pairGreedy, hfind]

/-- The source's mutate-while-iterating pairing loop computes exactly the
greedy first-match pairing. -/
theorem detectMods_eq_pairGreedy (removed added : List String) :
    detectMods removed removed added [] = pairGreedy removed added := by
  have h := detectMods_go_eq removed [] added [] (by intro u hu; simp at hu)
  simpa using h

/-- The unpaired removed lines together with the paired old lines are a
permutation of the diff-classified removed lines. -/
theorem pairGreedy_removed_perm (removed : List String) :
    ∀ added, ((pairGreedy removed added).1 ++
      ((pairGreedy removed added).2.2.map Prod.fst)).Perm removed := by
  induction removed with
  | nil => intro added; simp [pairGreedy]
  | cons rem rest ih =>
    intro added
    cases hfind : added.find? (fun a => ContentComparator._are_similar rem a) with
    | none =>
      simp only [pairGreedy, hfind, List.cons_append]
      exact (ih added).cons rem
    | some a =>
      simp only [pairGreedy, hfind, List.map_cons]
      exact List.perm_middle.trans ((ih _).cons rem)

/-- The unpaired added lines together with the paired new lines are a
permutation of the diff-classified added lines. -/
theorem pairGreedy_added_perm (removed : List String) :
    ∀ added, ((pairGreedy removed added).2.1 ++
      ((pairGreedy removed added).2.2.map Prod.snd)).Perm added := by
  induction removed with
  | nil => intro added; simp [pairGreedy]
  | cons rem rest ih =>
    intro added
    cases hfind : added.find? (fun a => ContentComparator._are_similar rem a) with
    | none =>
      simp only [pairGreedy, hfind]
      exact ih added
    | some a =>
      simp only [pairGreedy, hfind, List.map_cons]
      exact List.perm_middle.trans (((ih _).cons a).trans
        (perm_cons_eraseFirstP _ _ _ hfind))

/-- Characterization of literal matching at the head. -/
theorem litHere_iff (pat : List Char) : ∀ s, litHere pat s = true ↔ ∃ r, s = pat ++ r := by
  induction pat with
  | nil =>
    intro s
    simp [litHere]
  | cons p ps ih =>
    intro s
    cases s with
    | nil => simp [litHere]
    | cons c cs =>
      by_cases hpc : p = c
      · subst hpc
        simp only [litHere, eq_self_iff_true, if_true, List.cons_append, List.cons.injEq,
          true_and, ih cs]
      · simp only [litHere, if_neg hpc, List.cons_append, List.cons.injEq]
        constructor
        · intro hf
          cases hf
        · rintro ⟨r, hr, -⟩
          exact absurd hr.symm hpc

/-- Characterization of `re.search` as a suffix decomposition. -/
theorem reSearch_iff (m : List Char → Bool) (s : List Char) :
    reSearch m s = true ↔ ∃ pre suf, s = pre ++ suf ∧ m suf = true := by
  induction s with
  | nil =>
    simp only [reSearch]
    constructor
    · intro h
      exact ⟨[], [], rfl, h⟩
    · rintro ⟨pre, suf, heq, hm⟩
      obtain ⟨rfl, rfl⟩ := List.append_eq_nil.mp heq.symm
      exact hm
  | cons c cs ih =>
    simp only [reSearch, Bool.or_eq_true]
    constructor
    · rintro (h | h)
      · exact ⟨[], c :: cs, rfl, h⟩
      · obtain ⟨pre, suf, heq, hm⟩ := ih.mp h
        exact ⟨c :: pre, suf, by rw [List.cons_append, heq], hm⟩
    · rintro ⟨pre, suf, heq, hm⟩
      cases pre with
      | nil =>
        have hsuf : suf = c :: cs := by simpa using heq.symm
        subst hsuf
        exact Or.inl hm
      | cons p pre2 =>
        rw [List.cons_append] at heq
        exact Or.inr (ih.mpr ⟨pre2, suf, (List.cons.inj heq).2, hm⟩)

/-- Searching for a literal pattern is exactly containment anywhere in the
line. -/
theorem reSearch_litHere_iff (pat s : List Char) :
    reSearch (litHere pat) s = true ↔ containsLit pat s := by
  rw [reSearch_iff]
  constructor
  · rintro ⟨pre, suf, rfl, hm⟩
    obtain ⟨r, rfl⟩ := (litHere_iff pat suf).mp hm
    exact ⟨pre, r, by rw [List.append_assoc]⟩
  · rintro ⟨l, r, rfl⟩
    exact ⟨l, pat ++ r, by rw [List.append_assoc], (litHere_iff pat _).mpr ⟨r, rfl⟩⟩

/-! ## The claims -/

/-- Claim C1: whenever the two content hashes agree (in particular on
`compare(x, x)`), `compare` returns the forced short-circuit result:
`has_changes = False`, `change_score = 0.0`, empty added/removed/modified
lists, the fixed "no change" summary, and line counts taken from the raw
(unnormalized) `splitlines` of each input. -/
theorem c1_identical_hash_short_circuit (c : ContentComparator)
    (content_old content_new : String) (filter_dynamic : Bool)
    (h : ContentComparator._hash content_old = ContentComparator._hash content_new) :
    (c.compare content_old content_new filter_dynamic).has_changes = false ∧
    (c.compare content_old content_new filter_dynamic).change_score = 0 ∧
    (c.compare content_old content_new filter_dynamic).added_lines = [] ∧
    (c.compare content_old content_new filter_dynamic).removed_lines = [] ∧
    (c.compare content_old content_new filter_dynamic).modified_lines = [] ∧
    (c.compare content_old content_new filter_dynamic).diff_summary = "Aucun changement" ∧
    (c.compare content_old content_new filter_dynamic).total_lines_old =
      (pySplitlines content_old).length ∧
    (c.compare content_old content_new filter_dynamic).total_lines_new =
      (pySplitlines content_new).length := by
  rw [compare_of_hash_eq c content_old content_new filter_dynamic h]
  exact ⟨rfl, rfl, rfl, rfl, rfl, rfl, rfl, rfl⟩

/-- Witness for C1 at `compare(x, x)` with the defaults. -/
theorem c1_identical_hash_short_circuit_witness :
    ContentComparator._hash "Price: 99\nPlan: Pro\n" =
      ContentComparator._hash "Price: 99\nPlan: Pro\n" ∧
    ((ContentComparator.default.compare "Price: 99\nPlan: Pro\n" "Price: 99\nPlan: Pro\n"
        true).has_changes = false ∧
     (ContentComparator.default.compare "Price: 99\nPlan: Pro\n" "Price: 99\nPlan: Pro\n"
        true).change_score = 0 ∧
     (ContentComparator.default.compare "Price: 99\nPlan: Pro\n" "Price: 99\nPlan: Pro\n"
        true).added_lines = [] ∧
     (ContentComparator.default.compare "Price: 99\nPlan: Pro\n" "Price: 99\nPlan: Pro\n"
        true).removed_lines = [] ∧
     (ContentComparator.default.compare "Price: 99\nPlan: Pro\n" "Price: 99\nPlan: Pro\n"
        true).modified_lines = [] ∧
     (ContentComparator.default.compare "Price: 99\nPlan: Pro\n" "Price: 99\nPlan: Pro\n"
        true).diff_summary = "Aucun changement" ∧
     (ContentComparator.default.compare "Price: 99\nPlan: Pro\n" "Price: 99\nPlan: Pro\n"
        true).total_lines_old = (pySplitlines "Price: 99\nPlan: Pro\n").length ∧
     (ContentComparator.default.compare "Price: 99\nPlan: Pro\n" "Price: 99\nPlan: Pro\n"
        true).total_lines_new = (pySplitlines "Price: 99\nPlan: Pro\n").length) :=
  ⟨rfl, c1_identical_hash_short_circuit ContentComparator.default
    "Price: 99\nPlan: Pro\n" "Price: 99\nPlan: Pro\n" true rfl⟩

/-- Claim C2: on the full-diff branch (hashes differ), the change score is
`(len(added) + len(removed) + len(modified)) / max(total_lines_old,
total_lines_new, 1) * 100` over the normalized-and-filtered line lists, and
`has_changes` holds exactly when the score strictly exceeds the threshold;
a score equal to the threshold gives `has_changes = False`. -/
theorem c2_score_formula_and_threshold (c : ContentComparator)
    (content_old content_new : String) (filter_dynamic : Bool)
    (h : ContentComparator._hash content_old ≠ ContentComparator._hash content_new) :
    (c.compare content_old content_new filter_dynamic).change_score =
      (((c.compare content_old content_new filter_dynamic).added_lines.length +
        (c.compare content_old content_new filter_dynamic).removed_lines.length +
        (c.compare content_old content_new filter_dynamic).modified_lines.length : ℕ) : ℚ) /
      ((max (max (c.compare content_old content_new filter_dynamic).total_lines_old
          (c.compare content_old content_new filter_dynamic).total_lines_new) 1 : ℕ) : ℚ) *
        100 ∧
    ((c.compare content_old content_new filter_dynamic).has_changes = true ↔
      c.threshold < (c.compare content_old content_new filter_dynamic).change_score) ∧
    ((c.compare content_old content_new filter_dynamic).change_score = c.threshold →
      (c.compare content_old content_new filter_dynamic).has_changes = false) := by
  rw [compare_of_hash_ne c content_old content_new filter_dynamic h]
  refine ⟨compareDiffPath_score c content_old content_new filter_dynamic, ?_, ?_⟩
  · rw [compareDiffPath_has_changes]
    exact decide_eq_true_iff
  · intro he
    rw [compareDiffPath_has_changes, he]
    simp

/-- Witness for C2 on two one-line documents with distinct hashes. -/
theorem c2_score_formula_and_threshold_witness :
    ContentComparator._hash "a" ≠ ContentComparator._hash "b" ∧
    ((ContentComparator.default.compare "a" "b" true).change_score =
      (((ContentComparator.default.compare "a" "b" true).added_lines.length +
        (ContentComparator.default.compare "a" "b" true).removed_lines.length +
        (ContentComparator.default.compare "a" "b" true).modified_lines.length : ℕ) : ℚ) /
      ((max (max (ContentComparator.default.compare "a" "b" true).total_lines_old
          (ContentComparator.default.compare "a" "b" true).total_lines_new) 1 : ℕ) : ℚ) *
        100 ∧
    ((ContentComparator.default.compare "a" "b" true).has_changes = true ↔
      ContentComparator.default.threshold <
        (ContentComparator.default.compare "a" "b" true).change_score) ∧
    ((ContentComparator.default.compare "a" "b" true).change_score =
        ContentComparator.default.threshold →
      (ContentComparator.default.compare "a" "b" true).has_changes = false)) :=
  ⟨by decide, c2_score_formula_and_threshold ContentComparator.default "a" "b" true
    (by decide)⟩

/-- Claim C8: `compare` is a total function; on every input the score is
nonnegative and is the change count divided by a denominator that is at
least 1, so it is well-defined even when both filtered line lists are
empty. -/
theorem c8_total_and_well_defined (c : ContentComparator)
    (content_old content_new : String) (filter_dynamic : Bool) :
    0 ≤ (c.compare content_old content_new filter_dynamic).change_score ∧
    ∃ den : ℚ, 1 ≤ den ∧
      (c.compare content_old content_new filter_dynamic).change_score =
        (((c.compare content_old content_new filter_dynamic).added_lines.length +
          (c.compare content_old content_new filter_dynamic).removed_lines.length +
          (c.compare content_old content_new filter_dynamic).modified_lines.length : ℕ) : ℚ) /
          den * 100 := by
  by_cases h : ContentComparator._hash content_old = ContentComparator._hash content_new
  · rw [compare_of_hash_eq c content_old content_new filter_dynamic h]
    refine ⟨le_refl 0, 1, le_refl 1, ?_⟩
    norm_num
  · rw [compare_of_hash_ne c content_old content_new filter_dynamic h]
    constructor
    · rw [compareDiffPath_score]
      positivity
    · refine ⟨((max (max
          (c.compareDiffPath content_old content_new filter_dynamic).total_lines_old
          (c.compareDiffPath content_old content_new filter_dynamic).total_lines_new) 1 : ℕ) : ℚ),
        ?_, compareDiffPath_score c content_old content_new filter_dynamic⟩
      exact_mod_cast Nat.one_le_cast.mpr (le_max_right _ 1)

/-- Claim C9: `compare` is deterministic — two comparators constructed with
the same threshold and flags return identical `ComparisonResult` values on
the same inputs (in this embedding every iteration order of the algorithm is
fixed, mirroring CPython's specified dict/list semantics). -/
theorem c9_deterministic (cA cB : ContentComparator) (content_old content_new : String)
    (filter_dynamic : Bool) (ht : cA.threshold = cB.threshold)
    (hw : cA.ignore_whitespace = cB.ignore_whitespace)
    (hc : cA.ignore_case = cB.ignore_case) :
    cA.compare content_old content_new filter_dynamic =
      cB.compare content_old content_new filter_dynamic := by
  cases cA
  cases cB
  dsimp only at ht hw hc
  subst ht
  subst hw
  subst hc
  rfl

/-- Witness for C9 at a concrete configuration and input pair. -/
theorem c9_deterministic_witness :
    (ContentComparator.mk 1 true false).compare "old content" "new content" true =
      (ContentComparator.mk 1 true false).compare "old content" "new content" true :=
  c9_deterministic (ContentComparator.mk 1 true false) (ContentComparator.mk 1 true false)
    "old content" "new content" true rfl rfl rfl

/-- Claim C3: the source's mutate-while-iterating modification-detection
loop is exactly the greedy first-match pairing the spec describes: walk the
removed lines in diff order, pair each with the first not-yet-consumed
added line of similarity at least 0.7, consume both, keep the leftovers in
order; and this is precisely the pass `compare` runs on its
diff-classified working lists. -/
theorem c3_greedy_first_match_pairing :
    (∀ removed added : List String,
      detectMods removed removed added [] = pairGreedy removed added) ∧
    (∀ (c : ContentComparator) (content_old content_new : String) (filter_dynamic : Bool),
      c.pairedLists content_old content_new filter_dynamic =
        pairGreedy (c.diffLists content_old content_new filter_dynamic).1
          (c.diffLists content_old content_new filter_dynamic).2) :=
  ⟨detectMods_eq_pairGreedy, fun c content_old content_new filter_dynamic => by
    rw [pairedLists_def]
    exact detectMods_eq_pairGreedy _ _⟩

/-- Counterexample to claim C4 as stated: on old = `"qqqq\nabcdex\n"`,
new = `"abcdey\nqqqq\nabcdey\n"` the diff classifies `abcdey` as added
twice; one occurrence is consumed by the pair `(abcdex, abcdey)` and the
other stays in `added_lines`, so the line text `abcdey` appears both in
`added_lines` and in a `modified_lines` pair. -/
theorem c4_counterexample_value_reuse :
    "abcdey" ∈ (ContentComparator.default.compare "qqqq\nabcdex\n"
      "abcdey\nqqqq\nabcdey\n" true).added_lines ∧
    ("abcdex", "abcdey") ∈ (ContentComparator.default.compare "qqqq\nabcdex\n"
      "abcdey\nqqqq\nabcdey\n" true).modified_lines ∧
    (ContentComparator.default.compare "qqqq\nabcdex\n"
      "abcdey\nqqqq\nabcdey\n" true).added_lines = ["abcdey"] ∧
    (ContentComparator.default.compare "qqqq\nabcdex\n"
      "abcdey\nqqqq\nabcdey\n" true).modified_lines = [("abcdex", "abcdey")] := by
  have h : ContentComparator._hash "qqqq\nabcdex\n" ≠
      ContentComparator._hash "abcdey\nqqqq\nabcdey\n" := by decide
  have hsim : ContentComparator._are_similar "abcdex" "abcdey" = true := by
    have hM : ((getMatchingBlocks "abcdex".data "abcdey".data).map fun t => t.2.2).sum = 5 := by
      decide
    have hT : "abcdex".data.length + "abcdey".data.length = 12 := by decide
    simp only [ContentComparator._are_similar, ratioOf, hM, hT]
    norm_num
  have hdl : ContentComparator.default.diffLists "qqqq\nabcdex\n" "abcdey\nqqqq\nabcdey\n"
      true = (["abcdex"], ["abcdey", "abcdey"]) := by decide
  have hdm : detectMods ["abcdex"] ["abcdex"] ["abcdey", "abcdey"] [] =
      ([], ["abcdey"], [("abcdex", "abcdey")]) := by
    have hfind : (["abcdey", "abcdey"] : List String).find?
        (fun a => ContentComparator._are_similar "abcdex" a) = some "abcdey" :=
      List.find?_cons_of_pos _ hsim
    simp [detectMods, hfind, List.erase_cons_head]
  have hp : ContentComparator.default.pairedLists "qqqq\nabcdex\n" "abcdey\nqqqq\nabcdey\n"
      true = ([], ["abcdey"], [("abcdex", "abcdey")]) := by
    rw [pairedLists_def, hdl]
    exact hdm
  obtain ⟨hr, ha, hm⟩ := compareDiffPath_lines ContentComparator.default
    "qqqq\nabcdex\n" "abcdey\nqqqq\nabcdey\n" true
  rw [compare_of_hash_ne ContentComparator.default "qqqq\nabcdex\n" "abcdey\nqqqq\nabcdey\n"
    true h, ha, hm, hp]
  refine ⟨by simp, by simp, rfl, rfl⟩

/-- Claim C4 (amended): on the full-diff branch, `modified_lines` pairs are
drawn exclusively from the diff-classified pure removals and additions, and
each diff-classified occurrence is used at most once — `removed_lines`
together with the pairs' old sides is a permutation of the diff's removed
list, and `added_lines` together with the pairs' new sides is a permutation
of the diff's added list.  (The original claim's stronger reading — that no
line text appears in both a final list and a pair — fails when the diff
emits duplicate values, see the counterexample.) -/
theorem c4_pairing_occurrence_accounting (c : ContentComparator)
    (content_old content_new : String) (filter_dynamic : Bool)
    (h : ContentComparator._hash content_old ≠ ContentComparator._hash content_new) :
    ((c.compare content_old content_new filter_dynamic).removed_lines ++
      (c.compare content_old content_new filter_dynamic).modified_lines.map Prod.fst).Perm
      (c.diffLists content_old content_new filter_dynamic).1 ∧
    ((c.compare content_old content_new filter_dynamic).added_lines ++
      (c.compare content_old content_new filter_dynamic).modified_lines.map Prod.snd).Perm
      (c.diffLists content_old content_new filter_dynamic).2 ∧
    (∀ p ∈ (c.compare content_old content_new filter_dynamic).modified_lines,
      p.1 ∈ (c.diffLists content_old content_new filter_dynamic).1 ∧
      p.2 ∈ (c.diffLists content_old content_new filter_dynamic).2) := by
  rw [compare_of_hash_ne c content_old content_new filter_dynamic h]
  obtain ⟨hr, ha, hm⟩ := compareDiffPath_lines c content_old content_new filter_dynamic
  rw [hr, ha, hm, pairedLists_def, detectMods_eq_pairGreedy]
  refine ⟨pairGreedy_removed_perm _ _, pairGreedy_added_perm _ _, ?_⟩
  intro p hp
  constructor
  · exact (pairGreedy_removed_perm _ _).mem_iff.mp
      (List.mem_append.mpr (Or.inr (List.mem_map_of_mem Prod.fst hp)))
  · exact (pairGreedy_added_perm _ _).mem_iff.mp
      (List.mem_append.mpr (Or.inr (List.mem_map_of_mem Prod.snd hp)))

/-- Witness for the amended C4 at the counterexample input. -/
theorem c4_pairing_occurrence_accounting_witness :
    ContentComparator._hash "qqqq\nabcdex\n" ≠
      ContentComparator._hash "abcdey\nqqqq\nabcdey\n" ∧
    (((ContentComparator.default.compare "qqqq\nabcdex\n" "abcdey\nqqqq\nabcdey\n"
        true).removed_lines ++
      (ContentComparator.default.compare "qqqq\nabcdex\n" "abcdey\nqqqq\nabcdey\n"
        true).modified_lines.map Prod.fst).Perm
      (ContentComparator.default.diffLists "qqqq\nabcdex\n" "abcdey\nqqqq\nabcdey\n"
        true).1 ∧
    ((ContentComparator.default.compare "qqqq\nabcdex\n" "abcdey\nqqqq\nabcdey\n"
        true).added_lines ++
      (ContentComparator.default.compare "qqqq\nabcdex\n" "abcdey\nqqqq\nabcdey\n"
        true).modified_lines.map Prod.snd).Perm
      (ContentComparator.default.diffLists "qqqq\nabcdex\n" "abcdey\nqqqq\nabcdey\n"
        true).2 ∧
    (∀ p ∈ (ContentComparator.default.compare "qqqq\nabcdex\n" "abcdey\nqqqq\nabcdey\n"
        true).modified_lines,
      p.1 ∈ (ContentComparator.default.diffLists "qqqq\nabcdex\n" "abcdey\nqqqq\nabcdey\n"
        true).1 ∧
      p.2 ∈ (ContentComparator.default.diffLists "qqqq\nabcdex\n" "abcdey\nqqqq\nabcdey\n"
        true).2)) :=
  ⟨by decide, c4_pairing_occurrence_accounting ContentComparator.default
    "qqqq\nabcdex\n" "abcdey\nqqqq\nabcdey\n" true (by decide)⟩

/-- Claim C6: the pure-addition scenario — old `"A\nB\n"`, new
`"A\nB\nC\n"`, threshold 1.0, default flags — yields
`added_lines = ["C"]`, no removals, no modifications, a change score of
exactly 100/3 (the float the source computes is the binary rounding of this
rational), and `has_changes = True`. -/
theorem c6_pure_addition_scenario :
    (ContentComparator.default.compare "A\nB\n" "A\nB\nC\n" true).added_lines = ["C"] ∧
    (ContentComparator.default.compare "A\nB\n" "A\nB\nC\n" true).removed_lines = [] ∧
    (ContentComparator.default.compare "A\nB\n" "A\nB\nC\n" true).modified_lines = [] ∧
    (ContentComparator.default.compare "A\nB\n" "A\nB\nC\n" true).change_score = 100 / 3 ∧
    (ContentComparator.default.compare "A\nB\n" "A\nB\nC\n" true).has_changes = true := by
  have h : ContentComparator._hash "A\nB\n" ≠ ContentComparator._hash "A\nB\nC\n" := by
    decide
  have h1 : (ContentComparator.default.compareDiffPath "A\nB\n" "A\nB\nC\n"
      true).added_lines.length = 1 := by decide
  have h2 : (ContentComparator.default.compareDiffPath "A\nB\n" "A\nB\nC\n"
      true).removed_lines.length = 0 := by decide
  have h3 : (ContentComparator.default.compareDiffPath "A\nB\n" "A\nB\nC\n"
      true).modified_lines.length = 0 := by decide
  have h4 : (ContentComparator.default.compareDiffPath "A\nB\n" "A\nB\nC\n"
      true).total_lines_old = 2 := by decide
  have h5 : (ContentComparator.default.compareDiffPath "A\nB\n" "A\nB\nC\n"
      true).total_lines_new = 3 := by decide
  have h6 : max (max (2 : ℕ) 3) 1 = 3 := by norm_num
  have ht : ContentComparator.default.threshold = 1 := rfl
  refine ⟨by decide, by decide, by decide, ?_, ?_⟩
  · rw [compare_of_hash_ne ContentComparator.default "A\nB\n" "A\nB\nC\n" true h,
      compareDiffPath_score, h1, h2, h3, h4, h5, h6]
    norm_num
  · rw [compare_of_hash_ne ContentComparator.default "A\nB\n" "A\nB\nC\n" true h,
      compareDiffPath_has_changes, compareDiffPath_score, h1, h2, h3, h4, h5, h6, ht]
    exact decide_eq_true (by norm_num)

/-- Claim C7: the near-duplicate edit scenario — old `"Price: 99 EUR\n"`,
new `"Price: 129 EUR\n"`, default flags — has line similarity at least 0.7,
so `compare` returns exactly one modified pair and nothing added or
removed. -/
theorem c7_near_duplicate_modification :
    ContentComparator._are_similar "Price: 99 EUR" "Price: 129 EUR" = true ∧
    (ContentComparator.default.compare "Price: 99 EUR\n" "Price: 129 EUR\n"
      true).modified_lines = [("Price: 99 EUR", "Price: 129 EUR")] ∧
    (ContentComparator.default.compare "Price: 99 EUR\n" "Price: 129 EUR\n"
      true).added_lines = [] ∧
    (ContentComparator.default.compare "Price: 99 EUR\n" "Price: 129 EUR\n"
      true).removed_lines = [] := by
  have h : ContentComparator._hash "Price: 99 EUR\n" ≠
      ContentComparator._hash "Price: 129 EUR\n" := by decide
  have hsim : ContentComparator._are_similar "Price: 99 EUR" "Price: 129 EUR" = true := by
    have hM : ((getMatchingBlocks "Price: 99 EUR".data "Price: 129 EUR".data).map
        fun t => t.2.2).sum = 12 := by decide
    have hT : "Price: 99 EUR".data.length + "Price: 129 EUR".data.length = 27 := by decide
    simp only [ContentComparator._are_similar, ratioOf, hM, hT]
    norm_num
  have hdl : ContentComparator.default.diffLists "Price: 99 EUR\n" "Price: 129 EUR\n"
      true = (["Price: 99 EUR"], ["Price: 129 EUR"]) := by decide
  have hdm : detectMods ["Price: 99 EUR"] ["Price: 99 EUR"] ["Price: 129 EUR"] [] =
      ([], [], [("Price: 99 EUR", "Price: 129 EUR")]) := by
    have hfind : (["Price: 129 EUR"] : List String).find?
        (fun a => ContentComparator._are_similar "Price: 99 EUR" a) = some "Price: 129 EUR" :=
      List.find?_cons_of_pos _ hsim
    simp [detectMods, hfind, List.erase_cons_head]
  have hp : ContentComparator.default.pairedLists "Price: 99 EUR\n" "Price: 129 EUR\n"
      true = ([], [], [("Price: 99 EUR", "Price: 129 EUR")]) := by
    rw [pairedLists_def, hdl]
    exact hdm
  obtain ⟨hr, ha, hm⟩ := compareDiffPath_lines ContentComparator.default
    "Price: 99 EUR\n" "Price: 129 EUR\n" true
  rw [compare_of_hash_ne ContentComparator.default "Price: 99 EUR\n" "Price: 129 EUR\n"
    true h, ha, hm, hr, hp]
  exact ⟨hsim, rfl, rfl, rfl⟩

/-- Claim C10: the diff-analysis loop skips any diff line starting with
`---`, `+++` or `@@`, so a genuinely removed line whose text begins with
`--` (emitted as `-` + text = `---x`) is silently dropped from
`removed_lines` and from the change count, and likewise an added line
beginning with `++`. -/
theorem c10_header_prefix_collision :
    ContentComparator.default.normalizedLines "keep\n--x\n" true = ["keep", "--x"] ∧
    ContentComparator.default.normalizedLines "keep\n" true = ["keep"] ∧
    unifiedDiff ["keep", "--x"] ["keep"] = ["--- ", "+++ ", "@@ -2 +1,0 @@", "---x"] ∧
    litHere "---".data "---x".data = true ∧
    (ContentComparator.default.compare "keep\n--x\n" "keep\n" true).removed_lines = [] ∧
    ContentComparator.default.totalChanges "keep\n--x\n" "keep\n" true = 0 ∧
    (ContentComparator.default.compare "keep\n--x\n" "keep\n" true).has_changes = false ∧
    unifiedDiff ["keep"] ["keep", "++y"] = ["--- ", "+++ ", "@@ -1,0 +2 @@", "+++y"] ∧
    (ContentComparator.default.compare "keep\n" "keep\n++y\n" true).added_lines = [] ∧
    ContentComparator.default.totalChanges "keep\n" "keep\n++y\n" true = 0 := by
  have h : ContentComparator._hash "keep\n--x\n" ≠ ContentComparator._hash "keep\n" := by
    decide
  have k1 : (ContentComparator.default.compareDiffPath "keep\n--x\n" "keep\n"
      true).added_lines.length = 0 := by decide
  have k2 : (ContentComparator.default.compareDiffPath "keep\n--x\n" "keep\n"
      true).removed_lines.length = 0 := by decide
  have k3 : (ContentComparator.default.compareDiffPath "keep\n--x\n" "keep\n"
      true).modified_lines.length = 0 := by decide
  have k4 : (ContentComparator.default.compareDiffPath "keep\n--x\n" "keep\n"
      true).total_lines_old = 2 := by decide
  have k5 : (ContentComparator.default.compareDiffPath "keep\n--x\n" "keep\n"
      true).total_lines_new = 1 := by decide
  have k6 : max (max (2 : ℕ) 1) 1 = 2 := by norm_num
  have ht : ContentComparator.default.threshold = 1 := rfl
  refine ⟨by decide, by decide, by decide, by decide, by decide, by decide, ?_,
    by decide, by decide, by decide⟩
  rw [compare_of_hash_ne ContentComparator.default "keep\n--x\n" "keep\n" true h,
    compareDiffPath_has_changes, compareDiffPath_score, k1, k2, k3, k4, k5, k6, ht]
  exact decide_eq_false (by norm_num)

/-- Counterexample to claim C5 as stated: `re.search` matches the
`Updated:.*` pattern anywhere in the line, not only at its start, so the
line `"foo Updated: bar"` — which does not begin with `Updated:` in any
case — is discarded by the dynamic filter. -/
theorem c5_counterexample_not_only_at_line_start :
    ContentComparator._filter_dynamic_content ["foo Updated: bar"] = [] ∧
    litHere "Updated:".data "foo Updated: bar".data = false ∧
    litHere "updated:".data (pyLower "foo Updated: bar".data) = false := by
  refine ⟨by decide, by decide, by decide⟩

/-- Claim C5 (amended): with dynamic filtering on, a normalized line is
discarded exactly when one of the ten fixed patterns `re.search`-matches it
case-insensitively; for all five literal text patterns — `Updated:`,
`Last modified:`, `Session ID:`, `Cookie:`, `Generated on` — this means the
marker occurs anywhere in the line (not only as a leading prefix, which is
what the original claim said for the first three). -/
theorem c5_noise_filter_matches_anywhere :
    (∀ lines, ContentComparator._filter_dynamic_content lines =
      lines.filter fun l => ! isDynamic l) ∧
    (∀ line : String, isDynamic line = true ↔
      (reSearch isoAt (pyLower line.data) = true ∨
       reSearch ddmmAt (pyLower line.data) = true ∨
       reSearch timeAt (pyLower line.data) = true ∨
       containsLit "updated:".data (pyLower line.data) ∨
       containsLit "last modified:".data (pyLower line.data) ∨
       containsLit "session id:".data (pyLower line.data) ∨
       containsLit "cookie:".data (pyLower line.data) ∨
       reSearch visitorsAt (pyLower line.data) = true ∨
       reSearch copyrightAt (pyLower line.data) = true ∨
       containsLit "generated on".data (pyLower line.data))) := by
  constructor
  · intro lines
    induction lines with
    | nil => rfl
    | cons l ls ih =>
      by_cases hd : isDynamic l
      · simp [ContentComparator._filter_dynamic_content, hd, ih, List.filter_cons]
      · simp [ContentComparator._filter_dynamic_content, hd, ih, List.filter_cons]
  · intro line
    simp only [isDynamic, DYNAMIC_PATTERNS, List.any_cons, List.any_nil, Bool.or_eq_true,
      Bool.or_false, reSearch_litHere_iff]

end WebMonitor
